import Mathlib

/-!
Shallow embedding of the streaming protocol client of `rust-vue-demo`
(`src/webui/src/components/MessageMonitor.vue`, `<script setup>` block).

The component keeps five reactive cells — `count`, `activity`, `outframe`,
`frames`, `service_url` — plus the WebSocket `connection`.  The message
listener parses the inbound JSON, and then runs three independent truthiness
guards (`parsed.service_url`, `parsed.data`, `parsed.notice`) in that order.
The `error` and `close` listeners each toast the string "lost connection".
`sendFrame` forwards the composed string to `connection.send`.

Effects that the component delegates to the platform are made explicit state:
- `sent` records every payload actually handed to the wire
  (`WebSocket.send` transmits only when the socket is OPEN and silently
  discards the data when it is closing or closed);
- `toasts` records every `ElMessage` toast (`toast` / `toast_error`);
- `conn` is the WebSocket readyState abstraction: the platform has moved it
  to `Closed` by the time an `error` or `close` event is delivered;
- `history` is a ghost, append-only log of every frame ever pushed onto
  `frames`, used to state properties about "all frames ever appended".
-/

/-- One hexadecimal digit character, lowercase, as produced by the JS
`Number.prototype.toString(16)` digits (`0`-`9`, `a`-`f`). -/
def hexDigit (d : Nat) : Char :=
  if d < 10 then Char.ofNat (48 + d) else Char.ofNat (87 + d)

/-- Fuel-indexed hex digit list of `n`, most significant digit first.
With fuel `> n` this is exactly the digit string of JS `n.toString(16)`
for a nonnegative integer `n`. -/
def toHexAux : Nat → Nat → List Char
  | 0, _ => []
  | fuel + 1, n =>
      if n < 16 then [hexDigit n]
      else toHexAux fuel (n / 16) ++ [hexDigit (n % 16)]

/-- Embedding of `num.toString(16)` for a natural `num`. -/
def toHex (n : Nat) : String := String.mk (toHexAux (n + 1) n)

/-- Embedding of `String.prototype.padStart(places, c)`: pad on the left up
to `places` characters; a string already at least that long is returned
unchanged. -/
def padStart (s : String) (places : Nat) (c : Char) : String :=
  String.mk (List.replicate (places - s.length) c ++ s.data)

/-- Embedding of the listener-local helper
`zeroPadHex = (num, places) => String(num.toString(16)).padStart(places, '0')`. -/
def zeroPadHex (num places : Nat) : String :=
  padStart (toHex num) places '0'

lemma toHexAux_congr : ∀ f g n : Nat, n < f → n < g → toHexAux f n = toHexAux g n := by
  intro f
  induction f with
  | zero => intro g n hf _; omega
  | succ f ih =>
    intro g n hf hg
    cases g with
    | zero => omega
    | succ g =>
      by_cases h16 : n < 16
      · simp [toHexAux, h16]
      · have hdiv : n / 16 < n := Nat.div_lt_self (by omega) (by omega)
        simp only [toHexAux, if_neg h16]
        have := ih g (n / 16) (by omega) (by omega)
        rw [this]

lemma toHex_small {n : Nat} (h : n < 16) : toHex n = String.mk [hexDigit n] := by
  simp [toHex, toHexAux, h]

lemma toHexAux_succ (fuel n : Nat) :
    toHexAux (fuel + 1) n =
      if n < 16 then [hexDigit n] else toHexAux fuel (n / 16) ++ [hexDigit (n % 16)] := rfl

lemma toHex_big {n : Nat} (h : 16 ≤ n) :
    toHex n = String.mk (toHexAux (n / 16 + 1) (n / 16) ++ [hexDigit (n % 16)]) := by
  have hdiv : n / 16 < n := Nat.div_lt_self (by omega) (by omega)
  unfold toHex
  rw [toHexAux_succ, if_neg (by omega : ¬ n < 16),
    toHexAux_congr n (n / 16 + 1) (n / 16) (by omega) (by omega)]

lemma length_mk (l : List Char) : (String.mk l).length = l.length := rfl

lemma data_length (s : String) : s.data.length = s.length := rfl

lemma toHex_length_le : ∀ n k : Nat, n < 16 ^ k → 0 < k → (toHex n).length ≤ k := by
  intro n
  induction n using Nat.strong_induction_on with
  | _ n ih =>
    intro k hk hk0
    by_cases h16 : n < 16
    · rw [toHex_small h16, length_mk]
      simpa using hk0
    · have hdiv : n / 16 < n := Nat.div_lt_self (by omega) (by omega)
      have hk2 : 2 ≤ k := by
        by_contra hcon
        have hk1 : k = 1 := by omega
        subst hk1
        simp [pow_one] at hk
        omega
      have hlt : n / 16 < 16 ^ (k - 1) := by
        have h1 : 16 ^ (k - 1) * 16 = 16 ^ k := by
          rw [← pow_succ]
          congr 1
          omega
        rw [Nat.div_lt_iff_lt_mul (by omega : 0 < 16)]
        omega
      have hrec := ih (n / 16) hdiv (k - 1) hlt (by omega)
      rw [toHex_big (by omega), length_mk, List.length_append]
      rw [toHex, length_mk] at hrec
      simp only [List.length_singleton]
      omega

lemma zeroPadHex_length (num places : Nat) :
    (zeroPadHex num places).length = max places (toHex num).length := by
  simp only [zeroPadHex, padStart, length_mk, List.length_append, List.length_replicate,
    data_length]
  omega

/-- A buffered frame, as pushed by the message listener:
`frames.value.push({id: zeroPadHex(count.value, 8), frame: parsed.data})`.
The field `seq` is a ghost copy of the value of `count` at creation time
(the sequence number the `id` renders); it is determined by the push site
and carried only so that properties about sequence numbers can be stated. -/
structure Frame where
  seq : Nat
  id : String
  frame : String
deriving DecidableEq

/-- WebSocket readyState abstraction for the single channel owned by the
component. -/
inductive ConnState
  | Connecting
  | Open
  | Closed
deriving DecidableEq

/-- One `ElMessage` toast, as raised by the helpers `toast` (info) and
`toast_error` (error). -/
inductive Toast
  | info (msg : String)
  | error (msg : String)
deriving DecidableEq

/-- A decoded inbound message: the result of `JSON.parse(event.data)` for a
well-formed payload.  All three fields are optional and independent. -/
structure InMsg where
  service_url : Option String
  data : Option String
  notice : Option String
deriving DecidableEq

/-- JS truthiness of an optional string field, as tested by
`if (parsed.service_url)`, `if (parsed.data)`, `if (parsed.notice)`:
an absent field and an empty string are both falsy. -/
def truthy : Option String → Bool
  | none => false
  | some v => decide (v ≠ "")

/-- The component state: the reactive cells of `MessageMonitor.vue` plus the
explicit platform effects described in the header comment. -/
structure MonitorState where
  count : Nat
  activity : Nat
  service_url : String
  frames : List Frame
  conn : ConnState
  toasts : List Toast
  sent : List String
  history : List Frame
deriving DecidableEq

/-- The frame object built in the data branch at current counter `c` with
payload `d`. -/
def mkFrame (c : Nat) (d : String) : Frame :=
  { seq := c, id := zeroPadHex c 8, frame := d }

/-- First guard of the message listener:
`if (parsed.service_url) { service_url.value = parsed.service_url;
activity.value = (activity.value + 4) % 100; }`. -/
def applyIdentity (m : InMsg) (s : MonitorState) : MonitorState :=
  if truthy m.service_url then
    { s with service_url := m.service_url.getD "", activity := (s.activity + 4) % 100 }
  else s

/-- Second guard of the message listener:
`if (parsed.data) { if (frames.value.length > 100) { frames.value.shift(); }
frames.value.push({id: zeroPadHex(count.value, 8), frame: parsed.data});
count.value++; }`.  The ghost `history` records the pushed frame as well. -/
def applyData (m : InMsg) (s : MonitorState) : MonitorState :=
  if truthy m.data then
    { s with
      frames := (if 100 < s.frames.length then s.frames.tail else s.frames)
        ++ [mkFrame s.count (m.data.getD "")],
      count := s.count + 1,
      history := s.history ++ [mkFrame s.count (m.data.getD "")] }
  else s

/-- Third guard of the message listener:
`if (parsed.notice) { toast(parsed.notice); }`. -/
def applyNotice (m : InMsg) (s : MonitorState) : MonitorState :=
  if truthy m.notice then
    { s with toasts := s.toasts ++ [Toast.info (m.notice.getD "")] }
  else s

/-- The whole message listener body on a successfully parsed message: the
three guards run in source order (identity, then data, then notice). -/
def onMessage (m : InMsg) (s : MonitorState) : MonitorState :=
  applyNotice m (applyData m (applyIdentity m s))

/-- The events the component reacts to.  `recv none` is a message whose
payload `JSON.parse` rejects; `sendFrame txt` is a click of the Send Frame
button with `outframe.value = txt`. -/
inductive Event
  | recv (raw : Option InMsg)
  | errorEvt
  | closeEvt
  | sendFrame (txt : String)

/-- One event of the single-threaded event loop.

* `recv none`: `JSON.parse` throws inside the listener before any cell is
  mutated, so the exception aborts the handler and the state is unchanged.
* `recv (some m)`: the listener body `onMessage`.
* `errorEvt` / `closeEvt`: the platform has already moved the socket to
  `Closed` when these events fire; the handler bodies are the identical
  `toast_error("lost connection")`.
* `sendFrame txt`: `connection.value.send(outframe.value)`; the platform
  transmits only on an open socket and otherwise silently discards the
  payload, mutating nothing. -/
def step : Event → MonitorState → MonitorState
  | .recv none, s => s
  | .recv (some m), s => onMessage m s
  | .errorEvt, s =>
      { s with conn := .Closed, toasts := s.toasts ++ [Toast.error "lost connection"] }
  | .closeEvt, s =>
      { s with conn := .Closed, toasts := s.toasts ++ [Toast.error "lost connection"] }
  | .sendFrame txt, s =>
      if s.conn = ConnState.Open then { s with sent := s.sent ++ [txt] } else s

/-- Run a list of events, oldest first, through the event loop. -/
def processEvents (es : List Event) (s : MonitorState) : MonitorState :=
  es.foldl (fun st e => step e st) s

/-- The component state right after `createWs` succeeds: the `ref` initial
values (`count = 0`, `activity = 10`, `service_url = ""`, `frames = []`) with
an open channel and empty effect logs. -/
def init : MonitorState :=
  { count := 0, activity := 10, service_url := "", frames := [],
    conn := .Open, toasts := [], sent := [], history := [] }

/-- A state the component can actually be in: reachable from `init` by some
event sequence. -/
def Reachable (s : MonitorState) : Prop :=
  ∃ es : List Event, s = processEvents es init

lemma truthy_none : truthy none = false := rfl

lemma truthy_some_empty : truthy (some "") = false := by decide

lemma truthy_some {v : String} (h : v ≠ "") : truthy (some v) = true := by
  simp [truthy, h]

lemma applyIdentity_neg {m : InMsg} (s : MonitorState) (h : truthy m.service_url = false) :
    applyIdentity m s = s := by
  simp [applyIdentity, h]

lemma applyIdentity_pos {m : InMsg} (s : MonitorState) (h : truthy m.service_url = true) :
    applyIdentity m s =
      { s with service_url := m.service_url.getD "",
               activity := (s.activity + 4) % 100 } := by
  simp [applyIdentity, h]

@[simp] lemma applyIdentity_frames (m : InMsg) (s : MonitorState) :
    (applyIdentity m s).frames = s.frames := by
  unfold applyIdentity; split <;> rfl

@[simp] lemma applyIdentity_count (m : InMsg) (s : MonitorState) :
    (applyIdentity m s).count = s.count := by
  unfold applyIdentity; split <;> rfl

@[simp] lemma applyIdentity_history (m : InMsg) (s : MonitorState) :
    (applyIdentity m s).history = s.history := by
  unfold applyIdentity; split <;> rfl

@[simp] lemma applyIdentity_toasts (m : InMsg) (s : MonitorState) :
    (applyIdentity m s).toasts = s.toasts := by
  unfold applyIdentity; split <;> rfl

@[simp] lemma applyIdentity_sent (m : InMsg) (s : MonitorState) :
    (applyIdentity m s).sent = s.sent := by
  unfold applyIdentity; split <;> rfl

@[simp] lemma applyIdentity_conn (m : InMsg) (s : MonitorState) :
    (applyIdentity m s).conn = s.conn := by
  unfold applyIdentity; split <;> rfl

lemma applyData_neg {m : InMsg} (s : MonitorState) (h : truthy m.data = false) :
    applyData m s = s := by
  simp [applyData, h]

lemma applyData_pos {m : InMsg} (s : MonitorState) (h : truthy m.data = true) :
    applyData m s =
      { s with
        frames := (if 100 < s.frames.length then s.frames.tail else s.frames)
          ++ [mkFrame s.count (m.data.getD "")],
        count := s.count + 1,
        history := s.history ++ [mkFrame s.count (m.data.getD "")] } := by
  simp [applyData, h]

@[simp] lemma applyData_activity (m : InMsg) (s : MonitorState) :
    (applyData m s).activity = s.activity := by
  unfold applyData; split <;> rfl

@[simp] lemma applyData_service_url (m : InMsg) (s : MonitorState) :
    (applyData m s).service_url = s.service_url := by
  unfold applyData; split <;> rfl

@[simp] lemma applyData_toasts (m : InMsg) (s : MonitorState) :
    (applyData m s).toasts = s.toasts := by
  unfold applyData; split <;> rfl

@[simp] lemma applyData_sent (m : InMsg) (s : MonitorState) :
    (applyData m s).sent = s.sent := by
  unfold applyData; split <;> rfl

@[simp] lemma applyData_conn (m : InMsg) (s : MonitorState) :
    (applyData m s).conn = s.conn := by
  unfold applyData; split <;> rfl

lemma applyNotice_neg {m : InMsg} (s : MonitorState) (h : truthy m.notice = false) :
    applyNotice m s = s := by
  simp [applyNotice, h]

lemma applyNotice_pos {m : InMsg} (s : MonitorState) (h : truthy m.notice = true) :
    applyNotice m s = { s with toasts := s.toasts ++ [Toast.info (m.notice.getD "")] } := by
  simp [applyNotice, h]

@[simp] lemma applyNotice_frames (m : InMsg) (s : MonitorState) :
    (applyNotice m s).frames = s.frames := by
  unfold applyNotice; split <;> rfl

@[simp] lemma applyNotice_count (m : InMsg) (s : MonitorState) :
    (applyNotice m s).count = s.count := by
  unfold applyNotice; split <;> rfl

@[simp] lemma applyNotice_history (m : InMsg) (s : MonitorState) :
    (applyNotice m s).history = s.history := by
  unfold applyNotice; split <;> rfl

@[simp] lemma applyNotice_activity (m : InMsg) (s : MonitorState) :
    (applyNotice m s).activity = s.activity := by
  unfold applyNotice; split <;> rfl

@[simp] lemma applyNotice_service_url (m : InMsg) (s : MonitorState) :
    (applyNotice m s).service_url = s.service_url := by
  unfold applyNotice; split <;> rfl

@[simp] lemma applyNotice_sent (m : InMsg) (s : MonitorState) :
    (applyNotice m s).sent = s.sent := by
  unfold applyNotice; split <;> rfl

@[simp] lemma applyNotice_conn (m : InMsg) (s : MonitorState) :
    (applyNotice m s).conn = s.conn := by
  unfold applyNotice; split <;> rfl

lemma processEvents_nil (s : MonitorState) : processEvents [] s = s := rfl

lemma processEvents_cons (e : Event) (es : List Event) (s : MonitorState) :
    processEvents (e :: es) s = processEvents es (step e s) := rfl

lemma processEvents_append (l1 l2 : List Event) (s : MonitorState) :
    processEvents (l1 ++ l2) s = processEvents l2 (processEvents l1 s) := by
  simp [processEvents, List.foldl_append]

/-- Invariant of every reachable component state: the buffer is sorted by
sequence number (so index 0 is the minimum), holds at most 101 frames, every
buffered sequence number is below the counter, and the ghost log of all
frames ever appended carries exactly the sequence numbers 0 up to `count`
excluded, in order. -/
structure StateInv (s : MonitorState) : Prop where
  sorted : s.frames.Pairwise (fun a b => a.seq < b.seq)
  len_le : s.frames.length ≤ 101
  seq_lt : ∀ f ∈ s.frames, f.seq < s.count
  hist : s.history.map Frame.seq = List.range s.count

lemma inv_init : StateInv init := by
  refine ⟨?_, ?_, ?_, ?_⟩ <;> simp [init]

lemma inv_applyIdentity (m : InMsg) (s : MonitorState) (h : StateInv s) :
    StateInv (applyIdentity m s) := by
  refine ⟨?_, ?_, ?_, ?_⟩ <;>
    simp only [applyIdentity_frames, applyIdentity_count, applyIdentity_history]
  exacts [h.sorted, h.len_le, h.seq_lt, h.hist]

lemma inv_applyNotice (m : InMsg) (s : MonitorState) (h : StateInv s) :
    StateInv (applyNotice m s) := by
  refine ⟨?_, ?_, ?_, ?_⟩ <;>
    simp only [applyNotice_frames, applyNotice_count, applyNotice_history]
  exacts [h.sorted, h.len_le, h.seq_lt, h.hist]

lemma inv_applyData (m : InMsg) (s : MonitorState) (h : StateInv s) :
    StateInv (applyData m s) := by
  by_cases hd : truthy m.data = true
  · rw [applyData_pos s hd]
    have hsub : List.Sublist
        (if 100 < s.frames.length then s.frames.tail else s.frames) s.frames := by
      split
      · exact List.tail_sublist _
      · exact List.Sublist.refl _
    refine ⟨?_, ?_, ?_, ?_⟩
    · rw [List.pairwise_append]
      refine ⟨h.sorted.sublist hsub, List.pairwise_singleton _ _, ?_⟩
      intro a ha b hb
      have hma : a ∈ s.frames := hsub.subset ha
      have hlt := h.seq_lt a hma
      simp only [List.mem_singleton] at hb
      subst hb
      simpa [mkFrame] using hlt
    · simp only [List.length_append, List.length_singleton]
      have hle := h.len_le
      split
      · simp only [List.length_tail]
        omega
      · omega
    · intro f hf
      simp only [List.mem_append, List.mem_singleton] at hf
      rcases hf with hf | hf
      · have := h.seq_lt f (hsub.subset hf)
        show f.seq < s.count + 1
        omega
      · subst hf
        simp [mkFrame]
    · simp only [List.map_append, h.hist, List.range_succ, mkFrame, List.map_cons,
        List.map_nil]
  · rw [applyData_neg s (by simpa using hd)]
    exact h

lemma inv_onMessage (m : InMsg) (s : MonitorState) (h : StateInv s) :
    StateInv (onMessage m s) :=
  inv_applyNotice m _ (inv_applyData m _ (inv_applyIdentity m s h))

lemma inv_step (e : Event) (s : MonitorState) (h : StateInv s) : StateInv (step e s) := by
  cases e with
  | recv raw =>
    cases raw with
    | none => exact h
    | some m => exact inv_onMessage m s h
  | errorEvt => exact ⟨h.sorted, h.len_le, h.seq_lt, h.hist⟩
  | closeEvt => exact ⟨h.sorted, h.len_le, h.seq_lt, h.hist⟩
  | sendFrame txt =>
    simp only [step]
    split
    · exact ⟨h.sorted, h.len_le, h.seq_lt, h.hist⟩
    · exact h

lemma inv_processEvents : ∀ (es : List Event) (s : MonitorState), StateInv s →
    StateInv (processEvents es s) := by
  intro es
  induction es with
  | nil => intro s h; exact h
  | cons e es ih =>
    intro s h
    rw [processEvents_cons]
    exact ih (step e s) (inv_step e s h)

lemma reachable_inv {s : MonitorState} (h : Reachable s) : StateInv s := by
  obtain ⟨es, rfl⟩ := h
  exact inv_processEvents es init inv_init

lemma sorted_head_min {f0 : Frame} {rest : List Frame}
    (hs : (f0 :: rest).Pairwise (fun a b => a.seq < b.seq)) :
    ∀ g ∈ f0 :: rest, f0.seq ≤ g.seq := by
  intro g hg
  rcases List.mem_cons.mp hg with hg | hg
  · subst hg; exact Nat.le_refl _
  · exact Nat.le_of_lt ((List.pairwise_cons.mp hs).1 g hg)

/-- A well-formed inbound message carrying only a `data` field. -/
def dataMsg (d : String) : InMsg := { service_url := none, data := some d, notice := none }

/-- The inbound event delivering `dataMsg d`. -/
def dataEvt (d : String) : Event := Event.recv (some (dataMsg d))

lemma onMessage_data_only {d : String} (hd : d ≠ "") (s : MonitorState) :
    onMessage (dataMsg d) s =
      { s with
        frames := (if 100 < s.frames.length then s.frames.tail else s.frames)
          ++ [mkFrame s.count d],
        count := s.count + 1,
        history := s.history ++ [mkFrame s.count d] } := by
  unfold onMessage
  rw [applyIdentity_neg s (by rfl), applyData_pos s (truthy_some hd),
    applyNotice_neg _ (by rfl)]
  rfl

lemma repl_count {d : String} (hd : d ≠ "") :
    ∀ (n : Nat) (s : MonitorState),
      (processEvents (List.replicate n (dataEvt d)) s).count = s.count + n := by
  intro n
  induction n with
  | zero => intro s; simp [processEvents]
  | succ n ih =>
    intro s
    rw [List.replicate_succ, processEvents_cons]
    have hstep : step (dataEvt d) s = onMessage (dataMsg d) s := rfl
    rw [hstep, ih, onMessage_data_only hd]
    show s.count + 1 + n = s.count + (n + 1)
    omega

lemma repl_len {d : String} (hd : d ≠ "") :
    ∀ (n : Nat) (s : MonitorState), s.frames.length ≤ 101 →
      (processEvents (List.replicate n (dataEvt d)) s).frames.length
        = min (s.frames.length + n) 101 := by
  intro n
  induction n with
  | zero => intro s hs; simp [processEvents]; omega
  | succ n ih =>
    intro s hs
    rw [List.replicate_succ, processEvents_cons]
    have hstep : step (dataEvt d) s = onMessage (dataMsg d) s := rfl
    rw [hstep, onMessage_data_only hd]
    have hlen : ({ s with
        frames := (if 100 < s.frames.length then s.frames.tail else s.frames)
          ++ [mkFrame s.count d],
        count := s.count + 1,
        history := s.history ++ [mkFrame s.count d] } : MonitorState).frames.length
        = min (s.frames.length + 1) 101 := by
      simp only [List.length_append, List.length_singleton]
      split
      · simp only [List.length_tail]
        omega
      · omega
    rw [ih _ (by rw [hlen]; omega), hlen]
    omega

lemma truthy_falsy {o : Option String} (h : o = none ∨ o = some "") :
    truthy o = false := by
  rcases h with h | h <;> subst h <;> decide

lemma onMessage_frames (m : InMsg) (s : MonitorState) :
    (onMessage m s).frames =
      if truthy m.data
      then (if 100 < s.frames.length then s.frames.tail else s.frames)
        ++ [mkFrame s.count (m.data.getD "")]
      else s.frames := by
  unfold onMessage
  by_cases hd : truthy m.data = true
  · rw [applyData_pos _ hd]
    simp [hd]
  · rw [applyData_neg _ (by simpa using hd)]
    simp [hd]

/-- C1, corrected part: the claim's bound `size ≤ capacity` fails on the code.
The eviction guard `if (frames.value.length > 100)` runs before the push, so
101 consecutive data messages grow the buffer to 101 entries, strictly more
than the capacity constant 100 of the guard. -/
theorem C1_counterexample :
    100 < (processEvents (List.replicate 101 (dataEvt "AA")) init).frames.length := by
  rw [repl_len (by decide) 101 init (by simp [init])]
  norm_num [init]

/-- C1 (amended): after any event sequence the Frame History Buffer holds at
most 101 = capacity + 1 frames, and once the buffer is over the capacity
constant 100, an append triggered by a data message first evicts the index-0
element, which carries the minimum sequence number of the buffer, and then
inserts the new frame at the tail. -/
theorem C1_thm (s : MonitorState) (hs : Reachable s) (d : String) (hd : d ≠ "") :
    s.frames.length ≤ 101 ∧
      (100 < s.frames.length →
        ∃ f0 rest, s.frames = f0 :: rest ∧ (∀ g ∈ s.frames, f0.seq ≤ g.seq) ∧
          (onMessage (dataMsg d) s).frames = rest ++ [mkFrame s.count d]) := by
  have hi := reachable_inv hs
  refine ⟨hi.len_le, ?_⟩
  intro hlen
  obtain ⟨f0, rest, hfr⟩ : ∃ f0 rest, s.frames = f0 :: rest := by
    cases hcase : s.frames with
    | nil => rw [hcase] at hlen; simp at hlen
    | cons a l => exact ⟨a, l, rfl⟩
  refine ⟨f0, rest, hfr, ?_, ?_⟩
  · have hsorted := hi.sorted
    rw [hfr] at hsorted ⊢
    exact sorted_head_min hsorted
  · rw [onMessage_data_only hd]
    show (if 100 < s.frames.length then s.frames.tail else s.frames)
        ++ [mkFrame s.count d] = rest ++ [mkFrame s.count d]
    rw [if_pos hlen, hfr]
    rfl

/-- C1 witness: the amended bound applied to the concrete run of 101 data
messages from the initial state. -/
theorem C1_witness :
    (processEvents (List.replicate 101 (dataEvt "AA")) init).frames.length ≤ 101 :=
  (C1_thm _ ⟨List.replicate 101 (dataEvt "AA"), rfl⟩ "BB" (by decide)).1

/-- C2, corrected part: `sendFrame` is only
`connection.value.send(outframe.value)` — it never touches `frames` or
`count`, so at the open initial state a submission hands exactly the literal
string to the channel but adds no locally-tagged frame to the buffer,
refuting the claim's append conjunct. -/
theorem C2_counterexample :
    init.conn = ConnState.Open ∧
    (step (Event.sendFrame "123#DEADBEEF") init).sent = init.sent ++ ["123#DEADBEEF"] ∧
    (step (Event.sendFrame "123#DEADBEEF") init).frames = init.frames ∧
    ¬((step (Event.sendFrame "123#DEADBEEF") init).frames.length
        = init.frames.length + 1) := by
  refine ⟨rfl, rfl, rfl, by decide⟩

/-- C2 (amended): submitting an outgoing frame string while the connection is
Open causes the Connection Manager to receive exactly one send call with that
literal string, and changes nothing else: in particular no frame is appended
to the Frame History Buffer and no sequence number is consumed. -/
theorem C2_thm (s : MonitorState) (txt : String) (h : s.conn = ConnState.Open) :
    step (Event.sendFrame txt) s = { s with sent := s.sent ++ [txt] } := by
  simp [step, h]

/-- C2 witness: the amended statement at the concrete initial state and the
literal submission of the spec scenario. -/
theorem C2_witness :
    init.conn = ConnState.Open ∧
    step (Event.sendFrame "123#DEADBEEF") init = { init with sent := ["123#DEADBEEF"] } :=
  ⟨rfl, by rw [C2_thm init "123#DEADBEEF" rfl]; decide⟩

/-- C3 (confirmed): a malformed inbound message (`JSON.parse` throws before
any cell is written) mutates no state at all, so a malformed message followed
by a well-formed data message yields exactly the state the data message alone
would have produced: one new frame, bearing the sequence number `count` held
before either message arrived, and the counter advanced once. -/
theorem C3_thm (s : MonitorState) (d : String) (hd : d ≠ "") :
    step (Event.recv none) s = s ∧
    processEvents [Event.recv none, dataEvt d] s = processEvents [dataEvt d] s ∧
    (processEvents [dataEvt d] s).count = s.count + 1 ∧
    (processEvents [dataEvt d] s).history = s.history ++ [mkFrame s.count d] := by
  refine ⟨rfl, rfl, ?_, ?_⟩
  · show (onMessage (dataMsg d) s).count = s.count + 1
    rw [onMessage_data_only hd]
  · show (onMessage (dataMsg d) s).history = s.history ++ [mkFrame s.count d]
    rw [onMessage_data_only hd]

/-- C3 witness: the malformed-then-data scenario at the initial state. -/
theorem C3_witness :
    processEvents [Event.recv none, dataEvt "DE"] init = processEvents [dataEvt "DE"] init ∧
    (processEvents [dataEvt "DE"] init).count = 1 := by
  have h := C3_thm init "DE" (by decide)
  exact ⟨h.2.1, by rw [h.2.2.1]; decide⟩

/-- C4 (confirmed): starting from any activity level `a < 100`, processing
`k` well-formed messages whose `service_url` field passes the truthiness
guard leaves the activity level at `(a + 4 k) % 100`, whatever `data` and
`notice` fields those messages also carry. -/
theorem C4_thm (ms : List InMsg) : ∀ s : MonitorState, s.activity < 100 →
    (∀ m ∈ ms, truthy m.service_url = true) →
    (processEvents (ms.map (fun m => Event.recv (some m))) s).activity
      = (s.activity + 4 * ms.length) % 100 := by
  induction ms with
  | nil =>
    intro s hs _
    rw [List.map_nil, processEvents_nil, List.length_nil, Nat.mul_zero, Nat.add_zero,
      Nat.mod_eq_of_lt hs]
  | cons m ms ih =>
    intro s hs hall
    rw [List.map_cons, processEvents_cons]
    have hm := hall m (List.mem_cons_self m ms)
    have hstep : step (Event.recv (some m)) s = onMessage m s := rfl
    rw [hstep]
    have hact : (onMessage m s).activity = (s.activity + 4) % 100 := by
      unfold onMessage
      rw [applyIdentity_pos s hm]
      simp only [applyNotice_activity, applyData_activity]
    have hlt : (onMessage m s).activity < 100 := by
      rw [hact]
      exact Nat.mod_lt _ (by omega)
    rw [ih (onMessage m s) hlt (fun m' hm' => hall m' (List.mem_cons_of_mem m hm')),
      hact, Nat.mod_add_mod]
    congr 1
    simp only [List.length_cons]
    ring

/-- C4 witness: two heartbeat messages (one also carrying data, one also
carrying a notice) from the initial activity level 10 yield level 18. -/
theorem C4_witness :
    (processEvents
      (([{ service_url := some "u1", data := some "d", notice := none },
         { service_url := some "u2", data := none, notice := some "n" }] : List InMsg).map
        (fun m => Event.recv (some m))) init).activity = 18 := by
  rw [C4_thm _ init (by decide) (by decide)]
  decide

/-- C5 (confirmed): over the lifetime of one connection, the sequence numbers
of all frames ever appended to the buffer (the ghost `history` log) are
exactly `0, 1, ..., count - 1` in order: strictly increasing, gap-free and
never reused, whatever mixture of heartbeat, data, notice, malformed, error,
close and send events occurred. -/
theorem C5_thm (s : MonitorState) (hs : Reachable s) :
    s.history.map Frame.seq = List.range s.count :=
  (reachable_inv hs).hist

/-- C5 witness: a concrete run with two data messages around a malformed one
appends exactly the sequence numbers 0 and 1. -/
theorem C5_witness :
    (processEvents [dataEvt "AA", Event.recv none, dataEvt "BB"] init).history.map Frame.seq
      = List.range (processEvents [dataEvt "AA", Event.recv none, dataEvt "BB"] init).count ∧
    (processEvents [dataEvt "AA", Event.recv none, dataEvt "BB"] init).count = 2 :=
  ⟨C5_thm _ ⟨[dataEvt "AA", Event.recv none, dataEvt "BB"], rfl⟩, by decide⟩

/-- C6 (confirmed): the `error` and `close` listeners are handled
identically — on either event the channel is `Closed` and the identical
user-visible error toast "lost connection" is raised. -/
theorem C6_thm (s : MonitorState) :
    step Event.errorEvt s = step Event.closeEvt s ∧
    (step Event.errorEvt s).conn = ConnState.Closed ∧
    (step Event.closeEvt s).conn = ConnState.Closed ∧
    (step Event.errorEvt s).toasts = s.toasts ++ [Toast.error "lost connection"] :=
  ⟨rfl, rfl, rfl, rfl⟩

/-- C6 witness: the error/close equivalence at the concrete initial state. -/
theorem C6_witness :
    step Event.errorEvt init = step Event.closeEvt init ∧
    (step Event.errorEvt init).toasts = [Toast.error "lost connection"] :=
  ⟨(C6_thm init).1, by rw [(C6_thm init).2.2.2]; decide⟩

/-- The state right after the channel closed on the initial state. -/
def sClosed : MonitorState := step Event.closeEvt init

/-- C7, corrected part: the claim's rejected-send notice does not exist in the
code.  `sendFrame` is only `connection.value.send(...)`; with the channel
closed the platform silently discards the payload and the component raises no
toast — at the concrete closed state nothing changes at all. -/
theorem C7_counterexample :
    sClosed.conn ≠ ConnState.Open ∧
    (step (Event.sendFrame "123#DEADBEEF") sClosed).toasts = sClosed.toasts ∧
    step (Event.sendFrame "123#DEADBEEF") sClosed = sClosed := by
  refine ⟨by decide, rfl, by decide⟩

/-- C7 (amended): an outgoing submission attempted while the channel is not
Open is silently dropped: nothing reaches the wire, no notice is raised, and
the whole component state is unchanged. -/
theorem C7_thm (s : MonitorState) (txt : String) (h : s.conn ≠ ConnState.Open) :
    step (Event.sendFrame txt) s = s := by
  simp [step, h]

/-- C7 witness: the amended statement at the concrete closed state. -/
theorem C7_witness : step (Event.sendFrame "xyz") sClosed = sClosed :=
  C7_thm sClosed "xyz" (by decide)

/-- The concrete run of the C8 counterexample: 4294967297 consecutive data
messages from the initial state. -/
def c8run : MonitorState :=
  processEvents (List.replicate 4294967296 (dataEvt "AA") ++ [dataEvt "AA"]) init

/-- C8, corrected part: the id is not always exactly 8 hex digits.
`padStart(8, '0')` only pads up to 8 characters and never truncates, so the
frame appended by the 4294967297-th data message — a reachable run — renders
sequence number 16^8 = 4294967296 as the 9-character id "100000000". -/
theorem C8_counterexample :
    (c8run.frames.getLast?).map Frame.id = some "100000000" ∧
    ¬(("100000000" : String).length = 8) := by
  constructor
  · have h2 : c8run = onMessage (dataMsg "AA")
        (processEvents (List.replicate 4294967296 (dataEvt "AA")) init) := by
      unfold c8run
      rw [processEvents_append]
      rfl
    have hc : (processEvents (List.replicate 4294967296 (dataEvt "AA")) init).count
        = 4294967296 := by
      rw [repl_count (by decide)]
      decide
    rw [h2, onMessage_data_only (by decide)]
    dsimp only
    rw [List.getLast?_concat, hc]
    decide
  · decide

/-- C8 (amended): every frame constructed from an inbound data message has as
id the hexadecimal rendering of its sequence number left-padded with zeros to
at least 8 characters; the id is exactly 8 characters precisely when the
sequence number is below 16^8. -/
theorem C8_thm (s : MonitorState) (m : InMsg) (d : String) (hmd : m.data = some d)
    (hd : d ≠ "") :
    (onMessage m s).frames.getLast? = some (mkFrame s.count d) ∧
    (mkFrame s.count d).id = zeroPadHex s.count 8 ∧
    8 ≤ (mkFrame s.count d).id.length ∧
    (s.count < 16 ^ 8 → (mkFrame s.count d).id.length = 8) := by
  refine ⟨?_, rfl, ?_, ?_⟩
  · rw [onMessage_frames, if_pos (by rw [hmd]; exact truthy_some hd),
      List.getLast?_concat, hmd]
    rfl
  · rw [show (mkFrame s.count d).id = zeroPadHex s.count 8 from rfl, zeroPadHex_length]
    omega
  · intro hlt
    rw [show (mkFrame s.count d).id = zeroPadHex s.count 8 from rfl, zeroPadHex_length]
    have := toHex_length_le s.count 8 hlt (by omega)
    omega

/-- C8 witness: the amended statement at the initial state, where the frame id
is the 8-character rendering of sequence number 0. -/
theorem C8_witness :
    (onMessage (dataMsg "C8") init).frames.getLast? = some (mkFrame 0 "C8") ∧
    (mkFrame 0 "C8").id.length = 8 := by
  have h := C8_thm init (dataMsg "C8") "C8" rfl (by decide)
  exact ⟨by rw [h.1]; rfl, h.2.2.2 (by decide)⟩

/-- C9 (confirmed): an empty-string field is treated exactly like an absent
field.  An empty or absent `data` field appends no frame and consumes no
sequence number; an empty or absent `service_url` field neither replaces the
service identity nor advances the activity level; an empty or absent `notice`
field raises no toast; and a message with all three fields empty or absent
changes nothing at all. -/
theorem C9_thm (s : MonitorState) (m : InMsg) :
    ((m.data = none ∨ m.data = some "") →
      (onMessage m s).frames = s.frames ∧ (onMessage m s).count = s.count ∧
      (onMessage m s).history = s.history) ∧
    ((m.service_url = none ∨ m.service_url = some "") →
      (onMessage m s).service_url = s.service_url ∧
      (onMessage m s).activity = s.activity) ∧
    ((m.notice = none ∨ m.notice = some "") → (onMessage m s).toasts = s.toasts) ∧
    ((m.service_url = none ∨ m.service_url = some "") →
      (m.data = none ∨ m.data = some "") →
      (m.notice = none ∨ m.notice = some "") → onMessage m s = s) := by
  refine ⟨?_, ?_, ?_, ?_⟩
  · intro h
    unfold onMessage
    rw [applyData_neg _ (truthy_falsy h)]
    simp
  · intro h
    unfold onMessage
    rw [applyIdentity_neg _ (truthy_falsy h)]
    simp
  · intro h
    unfold onMessage
    rw [applyNotice_neg _ (truthy_falsy h)]
    simp
  · intro h1 h2 h3
    unfold onMessage
    rw [applyIdentity_neg _ (truthy_falsy h1), applyData_neg _ (truthy_falsy h2),
      applyNotice_neg _ (truthy_falsy h3)]

/-- C9 witness: a message whose three fields are the empty string, the empty
string and absent leaves the initial state untouched. -/
theorem C9_witness :
    onMessage { service_url := some "", data := some "", notice := none } init = init :=
  (C9_thm init { service_url := some "", data := some "", notice := none }).2.2.2
    (Or.inr rfl) (Or.inr rfl) (Or.inl rfl)

/-- A concrete state holding a full buffer of 101 frames. -/
def s101c : MonitorState := { init with frames := List.replicate 101 (mkFrame 0 "AA") }

/-- C10 (confirmed): the real bound of the Frame History Buffer is
capacity + 1.  The eviction guard `frames.value.length > 100` fires only when
the pre-insertion length strictly exceeds 100, so the length never exceeds
101, reaches 101 after 101 data messages, stays at 101 under every further
event, and no eviction happens while the pre-insertion length is at most
100. -/
theorem C10_thm :
    (∀ es : List Event, (processEvents es init).frames.length ≤ 101) ∧
    ((processEvents (List.replicate 101 (dataEvt "BB")) init).frames.length = 101) ∧
    (∀ (s : MonitorState) (e : Event), s.frames.length = 101 →
      (step e s).frames.length = 101) ∧
    (∀ (s : MonitorState) (m : InMsg), s.frames.length ≤ 100 → truthy m.data = true →
      (onMessage m s).frames = s.frames ++ [mkFrame s.count (m.data.getD "")]) := by
  refine ⟨?_, ?_, ?_, ?_⟩
  · intro es
    exact (inv_processEvents es init inv_init).len_le
  · rw [repl_len (by decide) 101 init (by simp [init])]
    norm_num [init]
  · intro s e h
    cases e with
    | recv raw =>
      cases raw with
      | none => exact h
      | some m =>
        have hframes : (step (Event.recv (some m)) s).frames = (onMessage m s).frames := rfl
        rw [hframes, onMessage_frames]
        by_cases hd : truthy m.data = true
        · rw [if_pos hd, if_pos (by omega)]
          simp only [List.length_append, List.length_tail, List.length_singleton]
          omega
        · rw [if_neg (by simpa using hd)]
          exact h
    | errorEvt => exact h
    | closeEvt => exact h
    | sendFrame txt =>
      simp only [step]
      split
      · exact h
      · exact h
  · intro s m h1 h2
    rw [onMessage_frames, if_pos h2, if_neg (by omega)]

/-- C10 witness: the steady-state and no-early-eviction parts at concrete
states: a full 101-frame buffer stays at 101 on a further event, and at the
empty initial buffer a data message appends without evicting. -/
theorem C10_witness :
    (step Event.errorEvt s101c).frames.length = 101 ∧
    (onMessage (dataMsg "BB") init).frames = init.frames ++ [mkFrame init.count "BB"] :=
  ⟨C10_thm.2.2.1 s101c Event.errorEvt (by decide),
   C10_thm.2.2.2 init (dataMsg "BB") (by decide) (by decide)⟩
